import Mathlib

/-!
Verification development for the BRF Portal hook scripts
(`hooks/scripts/security-check.py`, `hooks/scripts/code-quality.py`,
`hooks/scripts/swedish-context.py`).

The three handlers are shallowly embedded as pure Lean functions.
External effects are explicit parameters:
* the standard-input JSON document is `Option Json` (`none` models an
  empty, unreadable, or syntactically invalid input channel — all of
  which the scripts' `get_hook_input`/`get_user_input` map to an empty
  document via their bare `except`);
* the filesystem is a function `String → Option String` (`none` models
  "path does not exist or is unreadable", `some c` models a readable
  file with contents `c`);
* subprocess results (`npx eslint`, `npx tsc`) are `Option (Int × String)`
  parameters (`none` models any raised exception: missing binary,
  timeout, crash), and the current wall-clock reading of
  `datetime.now().strftime(...)` is a `String` parameter.

Pattern matching: the scripts use Python `re.finditer` / `re.search`.
These are embedded by a small Brzozowski-derivative engine below
(`RE`, `nullable`, `deriv`, `longestMatchAux`, `finditer`).  The engine
realises leftmost, non-overlapping, longest-at-each-start matching; on
every pattern appearing in the scripts this coincides with Python's
backtracking (leftmost, greedy) semantics, because in each pattern the
optional / starred subterms are followed by syntactically disjoint
material (e.g. `[^"\x27]{8,}` is followed by a quote the class cannot
consume, `[-\s]?` is followed by a digit the class cannot consume), so
at each start position the set of match extents has a unique greedy
maximum, which is the longest one.  Character classes `\d`, `\s`, `\w`
and case-insensitive matching are embedded at ASCII precision, which is
exact on every input a claim below mentions.
-/

/-- Regular expressions over `Char`, with character classes as predicates. -/
inductive RE where
  | emptyset : RE
  | eps : RE
  | pred (p : Char → Bool) : RE
  | cat (r₁ r₂ : RE) : RE
  | alt (r₁ r₂ : RE) : RE
  | star (r : RE) : RE

/-- Does the regex accept the empty string? -/
def RE.nullable : RE → Bool
  | .emptyset => false
  | .eps => true
  | .pred _ => false
  | .cat r₁ r₂ => r₁.nullable && r₂.nullable
  | .alt r₁ r₂ => r₁.nullable || r₂.nullable
  | .star _ => true

/-- Brzozowski derivative of a regex with respect to one character. -/
def RE.deriv : RE → Char → RE
  | .emptyset, _ => .emptyset
  | .eps, _ => .emptyset
  | .pred p, c => if p c then .eps else .emptyset
  | .cat r₁ r₂, c =>
      if r₁.nullable then .alt (.cat (r₁.deriv c) r₂) (r₂.deriv c)
      else .cat (r₁.deriv c) r₂
  | .alt r₁ r₂, c => .alt (r₁.deriv c) (r₂.deriv c)
  | .star r, c => .cat (r.deriv c) (.star r)

/-- Length of the longest prefix of `cs` matched by `r`, if any prefix matches. -/
def RE.longestMatchAux (r : RE) : List Char → Option Nat
  | [] => if r.nullable then some 0 else none
  | c :: rest =>
      match (r.deriv c).longestMatchAux rest with
      | some n => some (n + 1)
      | none => if r.nullable then some 0 else none

/-- One scanning pass of `re.finditer`: leftmost, non-overlapping matches,
each of maximal length at its start position; an empty match advances the
scan by one position (as CPython does).  Returns `(start, matchedChars)`
pairs.  `fuel` bounds the number of scan steps; `finditer` supplies
`length + 1`, which is always sufficient. -/
def RE.finditerAux (r : RE) : Nat → Nat → List Char → List (Nat × List Char)
  | 0, _, _ => []
  | fuel + 1, i, cs =>
      match r.longestMatchAux cs with
      | none =>
          match cs with
          | [] => []
          | _ :: rest => r.finditerAux fuel (i + 1) rest
      | some 0 =>
          (i, []) ::
            (match cs with
             | [] => []
             | _ :: rest => r.finditerAux fuel (i + 1) rest)
      | some (n + 1) =>
          (i, cs.take (n + 1)) :: r.finditerAux fuel (i + n + 1) (cs.drop (n + 1))

/-- `re.finditer pattern s`, as start/match pairs. -/
def RE.finditer (r : RE) (s : String) : List (Nat × List Char) :=
  r.finditerAux (s.data.length + 1) 0 s.data

/-- Truthiness of `re.search pattern s`. -/
def RE.searchB (r : RE) (s : String) : Bool :=
  !(r.finditer s).isEmpty

/- Character classes as used by the scripts' patterns (ASCII precision). -/

/-- Python `\s` (ASCII range). -/
def wspChar (c : Char) : Bool :=
  c = ' ' || c = '\t' || c = '\n' || c = '\r' || c = '\x0b' || c = '\x0c'

/-- `[A-Za-z0-9]`. -/
def alnumChar (c : Char) : Bool := c.isAlpha || c.isDigit

/-- Python `\w` (ASCII range). -/
def wordChar (c : Char) : Bool := c.isAlpha || c.isDigit || c = '_'

/-- The apostrophe character (U+0027). -/
def squote : Char := Char.ofNat 39

/-- Single literal character, case-sensitive. -/
def RE.ch (c : Char) : RE := .pred (fun x => x = c)

/-- Single literal character, case-insensitive (ASCII fold, matching
`re.IGNORECASE` on the ASCII inputs the claims concern). -/
def RE.ich (c : Char) : RE := .pred (fun x => x.toLower = c.toLower)

/-- Case-sensitive literal string. -/
def RE.lit (s : String) : RE :=
  s.data.foldr (fun c acc => .cat (RE.ch c) acc) .eps

/-- Case-insensitive literal string. -/
def RE.ilit (s : String) : RE :=
  s.data.foldr (fun c acc => .cat (RE.ich c) acc) .eps

/-- `r{n}`: exactly `n` repetitions. -/
def RE.rep (r : RE) : Nat → RE
  | 0 => .eps
  | n + 1 => .cat r (RE.rep r n)

/-- `r+`. -/
def RE.plus (r : RE) : RE := .cat r (.star r)

/-- `r{n,}`. -/
def RE.repMin (r : RE) (n : Nat) : RE := .cat (RE.rep r n) (.star r)

/-- `r?`. -/
def RE.opt (r : RE) : RE := .alt r .eps

/-- Python `.` (any character except a newline). -/
def RE.dot : RE := .pred (fun c => c ≠ '\n')

/- String helpers shared by the three embeddings. -/

/-- Python `needle in hay` (substring test). -/
def strContains (hay needle : String) : Bool :=
  decide (needle.data <:+: hay.data)

/-- `needle` occurs as a contiguous substring of `hay` (propositional form). -/
def SubstrOf (needle hay : String) : Prop :=
  needle.data <:+: hay.data

instance (needle hay : String) : Decidable (SubstrOf needle hay) := by
  unfold SubstrOf; infer_instance

/-- Python `'\n'.join l`. -/
def joinNL : List String → String
  | [] => ""
  | [s] => s
  | s :: rest => s ++ "\n" ++ joinNL rest

/-- Python `str.lower` (ASCII fold; exact on the ASCII inputs the claims use). -/
def lowerStr (s : String) : String := ⟨s.data.map Char.toLower⟩

/-- Python `enumerate(l, n)`. -/
def pyEnum {α : Type} (n : Nat) : List α → List (Nat × α)
  | [] => []
  | a :: l => (n, a) :: pyEnum (n + 1) l

/-- Python `s[:n]` on a list of characters, packed back into a string. -/
def strTake (n : Nat) (cs : List Char) : String := ⟨cs.take n⟩

/-- Splitting a character list at newline characters; always returns at
least one (possibly empty) segment, like Python `str.split('\n')`. -/
def splitLinesAux : List Char → List (List Char)
  | [] => [[]]
  | c :: rest =>
      if c = '\n' then [] :: splitLinesAux rest
      else
        match splitLinesAux rest with
        | [] => [[c]]
        | l :: ls => (c :: l) :: ls

/-- Python `content.split('\n')`. -/
def pyLines (content : String) : List String :=
  (splitLinesAux content.data).map fun cs => ⟨cs⟩

example : RE.searchB (RE.ilit "abc") "xxABCx" = true := by decide
example : RE.searchB (RE.ilit "abc") "xxABx" = false := by decide
example : (RE.finditer (RE.rep (.pred alnumChar) 3) "ab cdef").length = 1 := by decide
example : (RE.finditer (RE.rep (.pred alnumChar) 3) "ab cdef") = [(3, ['c','d','e'])] := by decide

/-!  ## Shared event / decision model  -/

/-- Minimal JSON value model for the parsed standard-input document. -/
inductive Json where
  | null : Json
  | bool (b : Bool) : Json
  | num (n : Int) : Json
  | str (s : String) : Json
  | arr (xs : List Json) : Json
  | obj (fields : List (String × Json)) : Json

/-- Python `d.get(k, {})` on a parsed JSON object.  The scripts only apply
this to dictionaries (a non-dictionary at these positions would raise an
`AttributeError` outside any `try`, a path no claim exercises); on a
non-object value we return the empty object. -/
def Json.getD (j : Json) (k : String) : Json :=
  match j with
  | .obj fields =>
      match fields.find? (fun p => p.1 == k) with
      | some (_, v) => v
      | none => .obj []
  | _ => .obj []

/-- Python `d.get(k, "")` where the scripts subsequently use the value as a
string.  A present non-string value (which the scripts would carry along
and crash on later, a path no claim exercises) is modelled as `""`. -/
def Json.getStrD (j : Json) (k : String) : String :=
  match j with
  | .obj fields =>
      match fields.find? (fun p => p.1 == k) with
      | some (_, .str s) => s
      | _ => ""
  | _ => ""

/-- `get_hook_input` (identical in `security-check.py` and
`code-quality.py`): an empty, unreadable, or invalid-JSON input channel
(`none`) yields the empty document `{}`. -/
def get_hook_input (stdin : Option Json) : Json :=
  stdin.getD (.obj [])

/-- The single JSON document a handler prints: either a pass-through
(optionally with a `hookSpecificOutput` annotation, modelled as the pair
`(hookEventName, additionalContext)`), or a block decision with a reason. -/
inductive Decision where
  | cont (extra : Option (String × String)) : Decision
  | block (reason : String) : Decision
deriving DecidableEq

/-- The decision field of the output: `true` for the pass-through forms,
`false` for a block decision. -/
def Decision.isCont : Decision → Bool
  | .cont _ => true
  | .block _ => false

/-- A finding as the scripts represent it: `(lineNumber, description,
excerpt)`. -/
abbrev Finding := Nat × String × String

/-- `match.group()[:n] + '...'` — the bounded excerpt attached to a finding. -/
def excerptN (n : Nat) (m : List Char) : String := strTake n m ++ "..."

/-!  ## `security-check.py` — the blocking handler  -/

namespace SecurityCheck

/-- `\s` as an `RE`. -/
def wsp : RE := .pred wspChar

/-- `[:=]`. -/
def colonEq : RE := .pred (fun c => c = ':' || c = '=')

/-- `["\x27]` (double or single quote). -/
def quoteC : RE := .pred (fun c => c = '"' || c = squote)

/-- `[^"\x27]`. -/
def nonQuote : RE := .pred (fun c => !(c = '"' || c = squote))

/-- `kw\s*[:=]\s*["\x27][^"\x27]{m,}["\x27]` — the hardcoded-credential
patterns of `check_secrets`. -/
def credAssignRE (kw : String) (m : Nat) : RE :=
  .cat (RE.ilit kw) (.cat (.star wsp) (.cat colonEq (.cat (.star wsp)
    (.cat quoteC (.cat (RE.repMin nonQuote m) quoteC)))))

/-- `[A-Za-z0-9-_=]` (first JWT segment class). -/
def jwtC1 : RE := .pred (fun c => alnumChar c || c = '-' || c = '_' || c = '=')

/-- `[A-Za-z0-9-_.+/=]` (JWT signature segment class). -/
def jwtC2 : RE :=
  .pred (fun c => alnumChar c || c = '-' || c = '_' || c = '.' || c = '+' || c = '/' || c = '=')

/-- `eyJ[A-Za-z0-9-_=]+\.eyJ[A-Za-z0-9-_=]+\.[A-Za-z0-9-_.+/=]*`. -/
def jwtRE : RE :=
  .cat (RE.ilit "eyJ") (.cat (RE.plus jwtC1) (.cat (RE.ch '.')
    (.cat (RE.ilit "eyJ") (.cat (RE.plus jwtC1) (.cat (RE.ch '.') (.star jwtC2))))))

/-- `[a-f0-9]` under `re.IGNORECASE`. -/
def hexChar (c : Char) : Bool := c.isDigit || ('a' ≤ c.toLower && c.toLower ≤ 'f')

/-- `sbp_[a-f0-9]{40}`. -/
def sbpRE : RE := .cat (RE.ilit "sbp_") (RE.rep (.pred hexChar) 40)

/-- `test.*bank.*id.*key`. -/
def bankidRE : RE :=
  .cat (RE.ilit "test") (.cat (.star RE.dot) (.cat (RE.ilit "bank")
    (.cat (.star RE.dot) (.cat (RE.ilit "id") (.cat (.star RE.dot) (RE.ilit "key"))))))

/-- `sk_test_[a-zA-Z0-9]{24}` and its three siblings. -/
def stripeRE (pre : String) : RE := .cat (RE.ilit pre) (RE.rep (.pred alnumChar) 24)

/-- The generic `[A-Za-z0-9]{32}` heuristic. -/
def apiKey32RE : RE := RE.rep (.pred alnumChar) 32

/-- The `secret_patterns` table of `check_secrets`, in source order
(all matched with `re.IGNORECASE`). -/
def secret_patterns : List (RE × String) :=
  [ (stripeRE "sk_test_", "Stripe test key"),
    (stripeRE "sk_live_", "Stripe live key"),
    (stripeRE "pk_test_", "Stripe publishable test key"),
    (stripeRE "pk_live_", "Stripe publishable live key"),
    (apiKey32RE, "Potential API key (32 chars)"),
    (credAssignRE "password" 8, "Hardcoded password"),
    (credAssignRE "secret" 8, "Hardcoded secret"),
    (credAssignRE "token" 20, "Hardcoded token"),
    (credAssignRE "key" 20, "Hardcoded key"),
    (jwtRE, "JWT token"),
    (sbpRE, "Supabase project API key"),
    (bankidRE, "BankID test key") ]

/-- The four hardcoded-credential-literal rules of `secret_patterns`
(password / secret / token / key assigned a quoted literal). -/
def credentialRules : List (RE × String) :=
  [ (credAssignRE "password" 8, "Hardcoded password"),
    (credAssignRE "secret" 8, "Hardcoded secret"),
    (credAssignRE "token" 20, "Hardcoded token"),
    (credAssignRE "key" 20, "Hardcoded key") ]

/-- The environment-variable-reference suppression of `check_secrets`:
`'process.env' in line or 'env.' in line or '${' in line` (case-sensitive,
whole line). -/
def envMarker (line : String) : Bool :=
  strContains line "process.env" || strContains line "env." || strContains line "$\x7b"

/-- The findings `check_secrets` produces for one (1-based) line. -/
def checkSecretsLine (n : Nat) (line : String) : List Finding :=
  if envMarker line then []
  else
    secret_patterns.flatMap fun pd =>
      (pd.1.finditer line).map fun m => (n, pd.2, excerptN 20 m.2)

/-- `check_secrets`. -/
def check_secrets (content : String) : List Finding :=
  (pyEnum 1 (pyLines content)).flatMap fun p => checkSecretsLine p.1 p.2

/-- `\d`. -/
def digit : RE := .pred Char.isDigit

/-- `[A-Za-z]` (`[A-Z]` under `re.IGNORECASE`). -/
def alpha : RE := .pred Char.isAlpha

/-- `[-\s]`. -/
def sepC : RE := .pred (fun c => c = '-' || wspChar c)

/-- `\d{6}[-\s]?\d{4}` — the personal-ID-number (personnummer) shape. -/
def pidRE : RE := .cat (RE.rep digit 6) (.cat (RE.opt sepC) (RE.rep digit 4))

/-- The `sensitive_patterns` table of `check_sensitive_data`, in source
order (all matched with `re.IGNORECASE`). -/
def sensitive_patterns : List (RE × String) :=
  [ (pidRE, "Swedish personal ID number (personnummer)"),
    (.cat (RE.rep digit 8) (.cat (RE.opt sepC) (RE.rep digit 4)),
      "Swedish organization number"),
    (.cat (RE.ilit "bankgiro") (.cat (.star wsp) (.cat colonEq (.cat (.star wsp) (RE.plus digit)))),
      "Bankgiro number"),
    (.cat (RE.ilit "plusgiro") (.cat (.star wsp) (.cat colonEq (.cat (.star wsp) (RE.plus digit)))),
      "Plusgiro number"),
    (.cat (RE.ilit "iban") (.cat (.star wsp) (.cat colonEq (.cat (.star wsp)
      (.cat (RE.rep alpha 2) (.cat (RE.rep digit 2)
        (.cat (RE.rep (.pred alnumChar) 4) (RE.rep digit 16))))))),
      "IBAN number"),
    (.cat (RE.ilit "bic") (.cat (.star wsp) (.cat colonEq (.cat (.star wsp)
      (.cat (RE.rep alpha 6) (.cat (RE.rep (.pred alnumChar) 2)
        (RE.opt (RE.rep (.pred alnumChar) 3))))))),
      "BIC/SWIFT code") ]

/-- The test/comment suppression of `check_sensitive_data`:
`any(t in line.lower() for t in ['test','mock','example','//','/*','#'])`. -/
def sensSuppressed (line : String) : Bool :=
  ["test", "mock", "example", "//", "/*", "#"].any fun t => strContains (lowerStr line) t

/-- The findings `check_sensitive_data` produces for one (1-based) line. -/
def checkSensitiveLine (n : Nat) (line : String) : List Finding :=
  if sensSuppressed line then []
  else
    sensitive_patterns.flatMap fun pd =>
      (pd.1.finditer line).map fun m => (n, pd.2, excerptN 10 m.2)

/-- `check_sensitive_data`. -/
def check_sensitive_data (content : String) : List Finding :=
  (pyEnum 1 (pyLines content)).flatMap fun p => checkSensitiveLine p.1 p.2

/-- `[^/\s]`. -/
def notSlashWs : RE := .pred (fun c => !(c = '/' || wspChar c))

/-- `[^@\s]`. -/
def notAtWs : RE := .pred (fun c => !(c = '@' || wspChar c))

/-- `scheme://[^/\s]+:[^@\s]+@[^/\s]+` (matched case-sensitively: these
searches pass no flags). -/
def connRE (scheme : String) : RE :=
  .cat (RE.lit (scheme ++ "://")) (.cat (RE.plus notSlashWs) (.cat (RE.ch ':')
    (.cat (RE.plus notAtWs) (.cat (RE.ch '@') (RE.plus notSlashWs)))))

/-- The `db_patterns` table of `check_database_credentials`, in source order. -/
def db_patterns : List (RE × String) :=
  [ (connRE "postgresql", "PostgreSQL connection string with credentials"),
    (connRE "postgres", "PostgreSQL connection string with credentials"),
    (connRE "mysql", "MySQL connection string with credentials"),
    (connRE "mongodb", "MongoDB connection string with credentials") ]

/-- The environment-variable suppression of `check_database_credentials`
(only two markers here; no template-interpolation marker). -/
def dbEnvMarker (line : String) : Bool :=
  strContains line "process.env" || strContains line "env."

/-- The findings `check_database_credentials` produces for one line
(`re.search` boolean: at most one finding per pattern per line, constant
excerpt). -/
def checkDbLine (n : Nat) (line : String) : List Finding :=
  db_patterns.flatMap fun pd =>
    if pd.1.searchB line && !dbEnvMarker line then
      [(n, pd.2, "Connection string found")]
    else []

/-- `check_database_credentials`. -/
def check_database_credentials (content : String) : List Finding :=
  (pyEnum 1 (pyLines content)).flatMap fun p => checkDbLine p.1 p.2

/-- `f"  Line \x7bline_num\x7d: \x7bdescription\x7d (\x7bsample\x7d)"`. -/
def lineTag (n : Nat) : String := "Line " ++ toString n ++ ":"

/-- One itemized line of the block reason. -/
def fmtIssue (f : Finding) : String :=
  "  " ++ lineTag f.1 ++ " " ++ f.2.1 ++ " (" ++ f.2.2 ++ ")"

/-- The fixed text preceding the itemized findings in the block reason
(after `reason.strip()`; the odd characters are the script's literal,
mojibake-encoded emoji bytes). -/
def reasonHead : String :=
  "ðŸš« SECURITY VIOLATION DETECTED\n\nThe following security issues were found:\n"

/-- The fixed policy/remediation text following the itemized findings. -/
def reasonTail : String :=
  "\n\nðŸ”’ BRF Portal Security Policy:\n- Never commit API keys, passwords, or tokens\n- Use environment variables for sensitive data\n- Swedish personal data (personnummer) must be hashed\n- Database credentials must use environment variables\n\nðŸ’¡ To fix:\n- Move sensitive values to .env files\n- Use process.env.VARIABLE_NAME in code\n- Hash or tokenize Swedish personal identifiers\n- Review code before committing\n\nOperation blocked to protect BRF Portal security."

/-- `reason.strip()` as built by `main` from the aggregated findings. -/
def reasonFor (issues : List Finding) : String :=
  reasonHead ++ joinNL (issues.map fmtIssue) ++ reasonTail

/-- All three checks, aggregated in source order
(`secrets + sensitive_data + db_credentials`). -/
def securityFindings (content : String) : List Finding :=
  check_secrets content ++ check_sensitive_data content ++ check_database_credentials content

/-- The content `main` inspects: the `content` argument, falling back to
reading `file_path` when `content` is empty and a path was given
(a missing or unreadable file leaves the content empty). -/
def effContent (stdin : Option Json) (fs : String → Option String) : String :=
  let hook := get_hook_input stdin
  let args := (hook.getD "toolInput").getD "arguments"
  let fp := args.getStrD "file_path"
  let c := args.getStrD "content"
  if c = "" ∧ fp ≠ "" then (fs fp).getD "" else c

/-- `main` of `security-check.py`. -/
def main (stdin : Option Json) (fs : String → Option String) : Decision :=
  let content := effContent stdin fs
  if content = "" then .cont none
  else
    let issues := securityFindings content
    if issues = [] then .cont none
    else .block (reasonFor issues)

end SecurityCheck

/-- A hook-input document carrying inline content for the blocking handler:
`{"toolInput": {"arguments": {"file_path": "", "content": c}}}`. -/
def mkContentInput (c : String) : Json :=
  .obj [("toolInput", .obj [("arguments",
    .obj [("file_path", .str ""), ("content", .str c)])])]

example :
    SecurityCheck.check_secrets "password = \"verysecretvalue1\"" =
      [(1, "Hardcoded password", "password = \"verysecr...")] := by decide

example :
    SecurityCheck.check_secrets "token = process.env.API_TOKEN" = [] := by decide

example :
    SecurityCheck.check_sensitive_data "person: \"851212-1234\"" =
      [(1, "Swedish personal ID number (personnummer)", "851212-123...")] := by decide

example :
    SecurityCheck.check_sensitive_data "// person: \"851212-1234\"" = [] := by decide

/-!  ## `code-quality.py` — the advisory handler

The file on disk contains mojibake byte sequences where Swedish letters
and emoji were intended (e.g. the two-character sequence `√•`, that is
U+221A U+2022, where `å` was meant).  The embedding reproduces the file's
actual characters, written below with `\u` escapes. -/

namespace CodeQuality

/-- `file_path.endswith(suffix)`. -/
def endsWithStr (s suffix : String) : Bool :=
  decide (suffix.data <:+ s.data)

/-- The six two-character mojibake alternatives of the source's
`(?:√•|√§|√∂|√Ö|√Ñ|√ñ)` group. -/
def swedishAlt : RE :=
  .alt (RE.ilit "√•") (.alt (RE.ilit "√§")
    (.alt (RE.ilit "√∂") (.alt (RE.ilit "√Ö")
      (.alt (RE.ilit "√Ñ") (RE.ilit "√ñ")))))

/-- The `swedish_patterns` table of `check_swedish_strings`, in source
order (matched with `re.IGNORECASE`): double-quoted strings containing a
(mojibake) Swedish character, single-quoted ones, and the fixed vocabulary
`avgift|medlem|styrelse|√•rsst√§mma|underh√•ll`. -/
def swedish_patterns : List RE :=
  [ .cat (RE.ch '"') (.cat (.star (.pred (fun c => c ≠ '"')))
      (.cat swedishAlt (.cat (.star (.pred (fun c => c ≠ '"'))) (RE.ch '"')))),
    .cat (RE.ch squote) (.cat (.star (.pred (fun c => c ≠ squote)))
      (.cat swedishAlt (.cat (.star (.pred (fun c => c ≠ squote))) (RE.ch squote)))),
    .alt (RE.ilit "avgift") (.alt (RE.ilit "medlem") (.alt (RE.ilit "styrelse")
      (.alt (RE.ilit "√•rsst√§mma") (RE.ilit "underh√•ll")))) ]

/-- `check_swedish_strings`: flags each pattern match unless the part of
the line before the match already contains a translation-call marker. -/
def check_swedish_strings (fs : String → Option String) (file_path : String) : List String :=
  match fs file_path with
  | none => []
  | some content =>
      (pyEnum 1 (pyLines content)).flatMap fun p =>
        swedish_patterns.flatMap fun r =>
          (r.finditer p.2).filterMap fun m =>
            let pre := strTake m.1 p.2.data
            if !strContains pre "t(" && !strContains pre "translate(" then
              some ("Line " ++ toString p.1 ++ ": Swedish text \x27" ++
                (⟨m.2⟩ : String) ++ "\x27 should be internationalized")
            else none

/-- `\s` as an `RE`. -/
def wsp : RE := .pred wspChar

/-- `[:=]`. -/
def colonEq : RE := .pred (fun c => c = ':' || c = '=')

/-- `["\x27]`. -/
def quoteC : RE := .pred (fun c => c = '"' || c = squote)

/-- The pattern part of `(password|secret|key)\s*[:=]\s*["\x27]` (the
negative lookahead `(?!.*process\.env)` is handled in
`hardcodedSecretHit`). -/
def credKwRE : RE :=
  .cat (.alt (RE.ilit "password") (.alt (RE.ilit "secret") (RE.ilit "key")))
    (.cat (.star wsp) (.cat colonEq (.cat (.star wsp) quoteC)))

/-- Truthiness of `re.search` for the lookahead pattern
`(password|secret|key)\s*[:=]\s*["\x27](?!.*process\.env)` on one line.
At a fixed start position the greedy (longest) extent of the pattern part
leaves the shortest possible suffix; the suffixes of shorter extents are
supersets of it, so if any extent's lookahead succeeds then the longest
extent's does.  Checking only the longest extent is therefore equivalent
to Python's backtracking search. -/
def hardcodedSecretHit : List Char → Bool
  | [] => false
  | c :: rest =>
      (match credKwRE.longestMatchAux (c :: rest) with
       | some n => !strContains (lowerStr ⟨(c :: rest).drop n⟩) "process.env"
       | none => false)
      || hardcodedSecretHit rest

/-- `console\.log\([^)]*(?:password|secret|token|key)`. -/
def consoleLogRE : RE :=
  .cat (RE.ilit "console.log(") (.cat (.star (.pred (fun c => c ≠ ')')))
    (.alt (RE.ilit "password") (.alt (RE.ilit "secret")
      (.alt (RE.ilit "token") (RE.ilit "key")))))

/-- `eval\s*\(`. -/
def evalCallRE : RE := .cat (RE.ilit "eval") (.cat (.star wsp) (RE.ch '('))

/-- `innerHTML\s*=.*\+`. -/
def innerHtmlRE : RE :=
  .cat (RE.ilit "innerHTML") (.cat (.star wsp) (.cat (RE.ch '=')
    (.cat (.star RE.dot) (RE.ch '+'))))

/-- `check_security_issues` (advisory: these findings are aggregated into
the quality report, never into a block decision). -/
def check_security_issues (fs : String → Option String) (file_path : String) : List String :=
  match fs file_path with
  | none => []
  | some content =>
      (pyEnum 1 (pyLines content)).flatMap fun p =>
        (if hardcodedSecretHit p.2.data then
          ["Line " ++ toString p.1 ++ ": Hardcoded secret detected"] else []) ++
        (if consoleLogRE.searchB p.2 then
          ["Line " ++ toString p.1 ++ ": Logging sensitive information"] else []) ++
        (if evalCallRE.searchB p.2 then
          ["Line " ++ toString p.1 ++ ": Use of eval() function is dangerous"] else []) ++
        (if innerHtmlRE.searchB p.2 then
          ["Line " ++ toString p.1 ++ ": Potential XSS vulnerability"] else [])

/-- Truthiness of `re.search(r':\s*any\b', content)` (case-sensitive;
`\s` may cross newlines in this whole-file search, and `\b` holds after
`any` when the next character, if present, is not a word character). -/
def hasAnyType : List Char → Bool
  | [] => false
  | c :: rest =>
      (c = ':' &&
        (let cs1 := rest.dropWhile wspChar
         cs1.take 3 = ['a', 'n', 'y'] &&
           (match cs1.drop 3 with
            | [] => true
            | d :: _ => !wordChar d)))
      || hasAnyType rest

/-- The `brf_patterns` table of `check_typescript_compliance`. -/
def brf_patterns : List (String × String) :=
  [ ("cooperative_id", "Ensure cooperative_id is typed as UUID"),
    ("member_id", "Ensure member_id is typed as UUID"),
    ("apartment_number", "Ensure apartment_number follows Swedish format") ]

/-- `f'\x7bpattern\x7d.*UUID'` as an `RE` (whole-file search; `.` does not
cross newlines). -/
def coLocRE (pat : String) : RE :=
  .cat (RE.lit pat) (.cat (.star RE.dot) (RE.lit "UUID"))

/-- `check_typescript_compliance`. -/
def check_typescript_compliance (fs : String → Option String) (file_path : String) : List String :=
  if !(endsWithStr file_path ".ts" || endsWithStr file_path ".tsx") then []
  else
    match fs file_path with
    | none => []
    | some content =>
        (if hasAnyType content.data then
          ["Use of \x27any\x27 type found - consider specific typing for BRF data structures"]
         else []) ++
        brf_patterns.flatMap fun ps =>
          if strContains content ps.1 && !(coLocRE ps.1).searchB content then
            ["BRF Compliance: " ++ ps.2]
          else []

/-- `run_linting`: `eslint` and `tsc` are the subprocess outcomes
(`some (returncode, capturedText)`; `none` models any raised exception —
missing binary, timeout, crash — absorbed by the bare `except`). -/
def run_linting (file_path : String) (pkgJson : Bool)
    (eslint tsc : Option (Int × String)) : List String :=
  if pkgJson &&
      (endsWithStr file_path ".ts" || endsWithStr file_path ".tsx" ||
       endsWithStr file_path ".js" || endsWithStr file_path ".jsx") then
    (match eslint with
     | some rcOut =>
        if rcOut.1 ≠ 0 && rcOut.2 ≠ "" then ["ESLint issues:\n" ++ rcOut.2] else []
     | none => []) ++
    (if endsWithStr file_path ".ts" || endsWithStr file_path ".tsx" then
      match tsc with
      | some rcErr =>
          if rcErr.1 ≠ 0 && rcErr.2 ≠ "" then ["TypeScript issues:\n" ++ rcErr.2] else []
      | none => []
     else [])
  else []

/-- `os.path.basename` (POSIX). -/
def basename (p : String) : String :=
  ⟨(p.data.reverse.takeWhile (fun c => c ≠ '/')).reverse⟩

/-- The advisory report text (the odd characters are the script's literal
mojibake emoji). -/
def fmtQuality (file_path : String) (issues : List String) : String :=
  "\nüîç Code Quality Issues in " ++ basename file_path ++ ":\n" ++
  joinNL (issues.map fun i => "  ‚ö†Ô∏è  " ++ i) ++
  "\n\nüí° Please review and fix these issues for BRF Portal compliance.\n"

/-- `main` of `code-quality.py`: always a pass-through decision, with an
advisory annotation exactly when the aggregated issue list is non-empty. -/
def main (stdin : Option Json) (fs : String → Option String) (pkgJson : Bool)
    (eslint tsc : Option (Int × String)) : Decision :=
  let hook := get_hook_input stdin
  let args := (hook.getD "toolResult").getD "arguments"
  let fp := args.getStrD "file_path"
  if fp = "" ∨ (fs fp).isNone then .cont none
  else
    let issues := check_swedish_strings fs fp ++ check_security_issues fs fp ++
      check_typescript_compliance fs fp ++ run_linting fp pkgJson eslint tsc
    if issues = [] then .cont none
    else .cont (some ("PostToolUse", fmtQuality fp issues))

end CodeQuality

example :
    CodeQuality.check_security_issues
      (fun _ => some "const key = \x27aaaaaaaaaaaa\x27") "f.ts" =
      ["Line 1: Hardcoded secret detected"] := by decide

example :
    CodeQuality.check_security_issues
      (fun _ => some "const key = \x27x\x27 + process.env.K") "f.ts" = [] := by decide

example :
    CodeQuality.check_swedish_strings
      (fun _ => some "msg = \"avgift\"") "f.ts" =
      ["Line 1: Swedish text \x27avgift\x27 should be internationalized"] := by decide

example :
    CodeQuality.check_swedish_strings
      (fun _ => some "msg = t(\"avgift\")") "f.ts" =
      [] := by decide

/-!  ## `swedish-context.py` — the prompt handler  -/

namespace SwedishContext

/-- The static `SWEDISH_CONTEXT` terminology/compliance/integration block
(this file is valid UTF-8; the Swedish letters are genuine). -/
def SWEDISH_CONTEXT : String :=
  "\n## Swedish BRF Context\nWorking on a Swedish housing cooperative (bostadsrättsförening/BRF) management platform.\n\n### Key Swedish Terms:\n- **BRF**: Bostadsrättsförening (Housing Cooperative)\n- **Avgift**: Monthly fee paid by members\n- **Årsstämma**: Annual General Meeting (AGM)\n- **Styrelse**: Board of directors\n- **Medlemsregister**: Member registry\n- **Underhållsplan**: Maintenance plan\n- **Kösystem**: Queue system for apartment transfers\n- **Bokföringslagen**: Swedish Accounting Act\n- **Bostadsrättslagen**: Swedish Housing Cooperative Act\n\n### Compliance Requirements:\n- GDPR compliant data handling\n- Swedish accounting standards (K2/K3)\n- Bokföringslagen compliance\n- BankID authentication standard\n- Swedish language support\n\n### Integration Requirements:\n- Fortnox/Visma accounting integration\n- BankID authentication via Criipto\n- Swedish bank payment systems\n- Kivra digital mailbox\n- Skatteverket (Tax Agency) reporting\n- Bolagsverket (Companies Registration Office)\n\n### Technical Stack:\n- Next.js 14 with App Router\n- Supabase (PostgreSQL + Auth + Storage)\n- TypeScript strict mode\n- Row-Level Security for multi-tenancy\n- Swedish data residency requirements\n\n"

/-- The `FEATURE_CONTEXT` keyword→explanation table, in source (insertion)
order. -/
def FEATURE_CONTEXT : List (String × String) :=
  [ ("invoice", "Swedish invoice processing with OCR support for common suppliers like Vattenfall, E.ON, district heating companies"),
    ("authentication", "BankID integration via Criipto for secure Swedish identity verification"),
    ("accounting", "K2/K3 compliant bookkeeping with SIE file export for Swedish accounting systems"),
    ("payment", "Swedish payment methods: Bankgirot, Plusgirot, Swish, direct debit (autogiro)"),
    ("legal", "Swedish housing cooperative law compliance (Bostadsrättslagen)"),
    ("energy", "Swedish energy optimization with district heating (fjärrvärme) and electricity providers"),
    ("member", "Member management following Swedish cooperative structures and rights"),
    ("board", "Board protocols and decision tracking per Swedish corporate governance"),
    ("maintenance", "50-year maintenance planning as required for BRF compliance"),
    ("queue", "Apartment queue system (kösystem) following Swedish cooperative principles") ]

/-- Python `str.split()` (split at whitespace runs, no empty words). -/
def pyWords (s : String) : List String :=
  let p := s.data.foldr
    (fun c acc =>
      if wspChar c then
        if acc.1 = ([] : List Char) then acc
        else ([], (⟨acc.1⟩ : String) :: acc.2)
      else (c :: acc.1, acc.2))
    (([] : List Char), ([] : List String))
  if p.1 = [] then p.2 else (⟨p.1⟩ : String) :: p.2

/-- `get_user_input`: `none` models an empty, unreadable, or invalid-JSON
input channel; a present document contributes its `prompt` field (absent
or non-string fields degrade to `""` inside the script's `try`). -/
def get_user_input (stdin : Option Json) : String :=
  match stdin with
  | none => ""
  | some j => j.getStrD "prompt"

/-- `detect_feature_context`: a feature matches when its keyword, or any
of the first three whitespace-separated words of its explanation, occurs
in the lowercased prompt (the explanation words are not lowercased by the
script, so capitalized words can never match). -/
def detect_feature_context (prompt : String) : List String :=
  let pl := lowerStr prompt
  FEATURE_CONTEXT.filterMap fun fc =>
    if strContains pl fc.1 || ((pyWords fc.2).take 3).any (fun t => strContains pl t) then
      some ("- " ++ fc.2)
    else none

/-- The `brf_indicators` domain-relevance keyword list. -/
def brf_indicators : List String :=
  ["brf", "housing", "cooperative", "supabase", "swedish", "invoice", "member"]

/-- `main` of `swedish-context.py`; `now` is the formatted
`datetime.now().strftime("%Y-%m-%d %H:%M")` reading at invocation time. -/
def main (stdin : Option Json) (now : String) : Decision :=
  let user_prompt := get_user_input stdin
  let is_brf_related := brf_indicators.any fun k => strContains (lowerStr user_prompt) k
  if !is_brf_related && user_prompt.length > 0 then .cont none
  else
    let fc := detect_feature_context user_prompt
    let ctx :=
      (if fc ≠ [] then
        SWEDISH_CONTEXT ++ "\n### Relevant Feature Context:\n" ++ joinNL fc ++ "\n"
       else SWEDISH_CONTEXT) ++
      "\n### Current Context:\n- Working on BRF Portal development\n- Date: " ++
      now ++ " (Swedish time)\n"
    .cont (some ("UserPromptSubmit", ctx))

end SwedishContext

/-- A prompt-handler input document `{"prompt": p}`. -/
def mkPromptInput (p : String) : Json := .obj [("prompt", .str p)]

example :
    SwedishContext.main (some (mkPromptInput "refactor this sorting function")) "T" =
      .cont none := by decide

example :
    SwedishContext.detect_feature_context "update the invoice BRF feature" =
      ["- Swedish invoice processing with OCR support for common suppliers like Vattenfall, E.ON, district heating companies"] := by decide


/-!  ## Helper lemmas  -/

theorem substrOf_refl (s : String) : SubstrOf s s := List.infix_rfl

theorem substrOf_appendR {n h : String} (t : String) (hh : SubstrOf n h) :
    SubstrOf n (h ++ t) := by
  obtain ⟨u, v, huv⟩ := hh
  exact ⟨u, v ++ t.data, by rw [String.data_append, ← huv]; simp⟩

theorem substrOf_appendL {n h : String} (t : String) (hh : SubstrOf n h) :
    SubstrOf n (t ++ h) := by
  obtain ⟨u, v, huv⟩ := hh
  exact ⟨t.data ++ u, v, by rw [String.data_append, ← huv]; simp⟩

theorem substrOf_joinNL : ∀ {l : List String} {s : String}, s ∈ l → SubstrOf s (joinNL l)
  | [], _, h => absurd h (List.not_mem_nil _)
  | [x], s, h => by
      rw [List.mem_singleton] at h
      subst h
      exact substrOf_refl s
  | x :: y :: rest, s, h => by
      rcases List.mem_cons.mp h with h1 | h2
      · subst h1
        show SubstrOf s (s ++ "\n" ++ joinNL (y :: rest))
        exact substrOf_appendR _ (substrOf_appendR _ (substrOf_refl s))
      · show SubstrOf s (x ++ "\n" ++ joinNL (y :: rest))
        exact substrOf_appendL _ (substrOf_joinNL h2)

theorem pyEnum_get_mem {α : Type} : ∀ (l : List α) (n i : Nat) (h : i < l.length),
    (n + i, l.get ⟨i, h⟩) ∈ pyEnum n l
  | _ :: _, n, 0, _ => by simp [pyEnum]
  | a :: l, n, i + 1, h => by
      have hi : i < l.length := Nat.lt_of_succ_lt_succ (by simpa using h)
      have hrec := pyEnum_get_mem l (n + 1) i hi
      simp only [pyEnum, List.mem_cons]
      right
      have harith : n + (i + 1) = (n + 1) + i := by omega
      rw [harith]
      simpa using hrec

theorem mem_flatMap_pyEnum {β : Type} (f : Nat → String → List β) {l : List String}
    {i : Nat} {line : String} (hl : l.get? i = some line)
    {b : β} (hb : b ∈ f (i + 1) line) :
    b ∈ (pyEnum 1 l).flatMap (fun p => f p.1 p.2) := by
  rw [List.get?_eq_some] at hl
  obtain ⟨hi, hget⟩ := hl
  refine List.mem_flatMap.mpr ⟨(1 + i, line), ?_, ?_⟩
  · rw [← hget]
    exact pyEnum_get_mem _ 1 i hi
  · rw [Nat.add_comm 1 i]
    exact hb

theorem effContent_mkContentInput (content : String) (fs : String → Option String) :
    SecurityCheck.effContent (some (mkContentInput content)) fs = content := by
  show (if content = "" ∧ ("" : String) ≠ "" then (fs "").getD "" else content) = content
  rw [if_neg]
  rintro ⟨-, h⟩
  exact h rfl

theorem securityMain_mkContentInput (content : String) (fs : String → Option String) :
    SecurityCheck.main (some (mkContentInput content)) fs =
      (if content = "" then .cont none
       else if SecurityCheck.securityFindings content = [] then .cont none
       else .block (SecurityCheck.reasonFor (SecurityCheck.securityFindings content))) := by
  simp only [SecurityCheck.main, effContent_mkContentInput]

theorem securityFindings_empty_string : SecurityCheck.securityFindings "" = [] := by decide

theorem checkSecretsLine_fst {n : Nat} {line : String} {f : Finding}
    (hf : f ∈ SecurityCheck.checkSecretsLine n line) : f.1 = n := by
  unfold SecurityCheck.checkSecretsLine at hf
  split at hf
  · exact absurd hf (List.not_mem_nil _)
  · obtain ⟨pd, -, hf2⟩ := List.mem_flatMap.mp hf
    obtain ⟨m, -, rfl⟩ := List.mem_map.mp hf2
    rfl

theorem checkSecretsLine_has {n : Nat} {line : String} {rd : RE × String}
    (hmem : rd ∈ SecurityCheck.secret_patterns)
    (hne : rd.1.finditer line ≠ [])
    (hm : SecurityCheck.envMarker line = false) :
    ∃ ex, (n, rd.2, ex) ∈ SecurityCheck.checkSecretsLine n line := by
  obtain ⟨m, hmm⟩ := List.exists_mem_of_ne_nil _ hne
  refine ⟨excerptN 20 m.2, ?_⟩
  unfold SecurityCheck.checkSecretsLine
  rw [hm]
  simp only [Bool.false_eq_true, if_false]
  exact List.mem_flatMap.mpr ⟨rd, hmem, List.mem_map.mpr ⟨m, hmm, rfl⟩⟩

theorem checkSensitiveLine_has {n : Nat} {line : String} {rd : RE × String}
    (hmem : rd ∈ SecurityCheck.sensitive_patterns)
    (hne : rd.1.finditer line ≠ [])
    (hm : SecurityCheck.sensSuppressed line = false) :
    ∃ ex, (n, rd.2, ex) ∈ SecurityCheck.checkSensitiveLine n line := by
  obtain ⟨m, hmm⟩ := List.exists_mem_of_ne_nil _ hne
  refine ⟨excerptN 10 m.2, ?_⟩
  unfold SecurityCheck.checkSensitiveLine
  rw [hm]
  simp only [Bool.false_eq_true, if_false]
  exact List.mem_flatMap.mpr ⟨rd, hmem, List.mem_map.mpr ⟨m, hmm, rfl⟩⟩

theorem checkSensitiveLine_suppressed (n : Nat) {line : String}
    (h : SecurityCheck.sensSuppressed line = true) :
    SecurityCheck.checkSensitiveLine n line = [] := by
  unfold SecurityCheck.checkSensitiveLine
  simp [h]

theorem lineTag_substrOf_fmtIssue (f : Finding) :
    SubstrOf (SecurityCheck.lineTag f.1) (SecurityCheck.fmtIssue f) := by
  show SubstrOf _ ("  " ++ SecurityCheck.lineTag f.1 ++ " " ++ f.2.1 ++ " (" ++ f.2.2 ++ ")")
  exact substrOf_appendR _ (substrOf_appendR _ (substrOf_appendR _ (substrOf_appendR _
    (substrOf_appendR _ (substrOf_appendL _ (substrOf_refl _))))))

theorem securityMain_blocks {content : String} (fs : String → Option String)
    {f : Finding} (hf : f ∈ SecurityCheck.securityFindings content) :
    SecurityCheck.main (some (mkContentInput content)) fs =
      .block (SecurityCheck.reasonFor (SecurityCheck.securityFindings content)) ∧
    SubstrOf (SecurityCheck.lineTag f.1)
      (SecurityCheck.reasonFor (SecurityCheck.securityFindings content)) := by
  have hcne : content ≠ "" := by
    intro hc
    rw [hc, securityFindings_empty_string] at hf
    exact absurd hf (List.not_mem_nil _)
  have hne : SecurityCheck.securityFindings content ≠ [] := List.ne_nil_of_mem hf
  constructor
  · rw [securityMain_mkContentInput, if_neg hcne, if_neg hne]
  · have h1 : SubstrOf (SecurityCheck.fmtIssue f)
        (joinNL ((SecurityCheck.securityFindings content).map SecurityCheck.fmtIssue)) :=
      substrOf_joinNL (List.mem_map_of_mem _ hf)
    have h2 : SubstrOf (SecurityCheck.lineTag f.1) (SecurityCheck.fmtIssue f) :=
      lineTag_substrOf_fmtIssue f
    show SubstrOf _ (SecurityCheck.reasonHead ++
      joinNL ((SecurityCheck.securityFindings content).map SecurityCheck.fmtIssue) ++
      SecurityCheck.reasonTail)
    exact substrOf_appendR _ (substrOf_appendL _ (h2.trans h1))

theorem credentialRules_sub {rd : RE × String} (h : rd ∈ SecurityCheck.credentialRules) :
    rd ∈ SecurityCheck.secret_patterns := by
  simp only [SecurityCheck.credentialRules, List.mem_cons, List.not_mem_nil, or_false] at h
  rcases h with h | h | h | h <;> subst h <;> simp [SecurityCheck.secret_patterns]

theorem pid_head_sensitive :
    (SecurityCheck.pidRE, "Swedish personal ID number (personnummer)") ∈
      SecurityCheck.sensitive_patterns :=
  List.mem_cons_self _ _

theorem longestMatchAux_isSome_of_nullable {r : RE} (h : r.nullable = true) (cs : List Char) :
    (r.longestMatchAux cs).isSome = true := by
  cases cs with
  | nil => simp [RE.longestMatchAux, h]
  | cons c rest =>
      simp only [RE.longestMatchAux]
      cases (r.deriv c).longestMatchAux rest with
      | some n => simp
      | none => simp [h]

theorem longestMatchAux_alt_right : ∀ (a b : RE) (cs : List Char),
    (b.longestMatchAux cs).isSome = true →
    ((RE.alt a b).longestMatchAux cs).isSome = true
  | a, b, [], h => by
      simp only [RE.longestMatchAux] at h ⊢
      by_cases hb : b.nullable
      · simp [RE.nullable, hb]
      · simp [hb] at h
  | a, b, c :: rest, h => by
      simp only [RE.longestMatchAux, RE.deriv] at h ⊢
      cases hdb : (b.deriv c).longestMatchAux rest with
      | some n =>
          have hrec := longestMatchAux_alt_right (a.deriv c) (b.deriv c) rest (by simp [hdb])
          cases hall : (RE.alt (a.deriv c) (b.deriv c)).longestMatchAux rest with
          | some m => simp [hall]
          | none => rw [hall] at hrec; simp at hrec
      | none =>
          rw [hdb] at h
          by_cases hb : b.nullable
          · cases hall : (RE.alt (a.deriv c) (b.deriv c)).longestMatchAux rest with
            | some m => simp [hall]
            | none => simp [hall, RE.nullable, hb]
          · simp [hb] at h

theorem longestMatchAux_cat_eps : ∀ (r : RE) (cs : List Char),
    (r.longestMatchAux cs).isSome = true →
    ((RE.cat .eps r).longestMatchAux cs).isSome = true
  | r, [], h => by
      simp only [RE.longestMatchAux] at h ⊢
      by_cases hr : r.nullable
      · simp [RE.nullable, hr]
      · simp [hr] at h
  | r, c :: rest, h => by
      simp only [RE.longestMatchAux] at h ⊢
      have hde : (RE.cat .eps r).deriv c = .alt (.cat .emptyset r) (r.deriv c) := by
        simp [RE.deriv, RE.nullable]
      rw [hde]
      cases hdr : (r.deriv c).longestMatchAux rest with
      | some n =>
          have hrec := longestMatchAux_alt_right (RE.cat .emptyset r) (r.deriv c) rest
            (by simp [hdr])
          cases hall : (RE.alt (.cat .emptyset r) (r.deriv c)).longestMatchAux rest with
          | some m => simp [hall]
          | none => rw [hall] at hrec; simp at hrec
      | none =>
          rw [hdr] at h
          by_cases hr : r.nullable
          · cases hall : (RE.alt (.cat .emptyset r) (r.deriv c)).longestMatchAux rest with
            | some m => simp [hall]
            | none => simp [hall, RE.nullable, hr]
          · simp [hr] at h

theorem rep_pred_longest : ∀ (p : Char → Bool) (cs : List Char),
    (∀ c ∈ cs, p c = true) →
    ((RE.rep (.pred p) cs.length).longestMatchAux cs).isSome = true
  | _, [], _ => by simp [RE.rep, RE.longestMatchAux, RE.nullable]
  | p, c :: rest, hall => by
      have hc : p c = true := hall c (List.mem_cons_self c rest)
      have hrec := rep_pred_longest p rest fun d hd => hall d (List.mem_cons_of_mem c hd)
      have heps := longestMatchAux_cat_eps (RE.rep (.pred p) rest.length) rest hrec
      simp only [List.length_cons, RE.rep, RE.longestMatchAux]
      have hde : (RE.cat (.pred p) (RE.rep (.pred p) rest.length)).deriv c =
          .cat .eps (RE.rep (.pred p) rest.length) := by
        simp [RE.deriv, RE.nullable, hc]
      rw [hde]
      cases hx : (RE.cat .eps (RE.rep (.pred p) rest.length)).longestMatchAux rest with
      | some n => simp [hx]
      | none => rw [hx] at heps; simp at heps

theorem finditer_ne_nil_of_longest {r : RE} {cs : List Char}
    (h : (r.longestMatchAux cs).isSome = true) :
    r.finditer ⟨cs⟩ ≠ [] := by
  show r.finditerAux (cs.length + 1) 0 cs ≠ []
  cases hl : r.longestMatchAux cs with
  | none => rw [hl] at h; simp at h
  | some n =>
      cases n with
      | zero => simp [RE.finditerAux, hl]
      | succ m => simp [RE.finditerAux, hl]

theorem qualityMain_cont (stdin : Option Json) (fs : String → Option String) (pkg : Bool)
    (eslint tsc : Option (Int × String)) :
    ∃ extra, CodeQuality.main stdin fs pkg eslint tsc = .cont extra := by
  unfold CodeQuality.main
  dsimp only
  split
  · exact ⟨none, rfl⟩
  · split
    · exact ⟨none, rfl⟩
    · exact ⟨_, rfl⟩

theorem length_pos_of_ne_empty {p : String} (h : p ≠ "") : 0 < p.length := by
  cases p with
  | mk data =>
      cases data with
      | nil => exact absurd rfl h
      | cons c cs => simp [String.length]

theorem swedishMain_mkPromptInput (p now : String) :
    SwedishContext.main (some (mkPromptInput p)) now =
      if !(SwedishContext.brf_indicators.any fun k => strContains (lowerStr p) k) &&
          p.length > 0 then
        .cont none
      else
        .cont (some ("UserPromptSubmit",
          (if SwedishContext.detect_feature_context p ≠ [] then
            SwedishContext.SWEDISH_CONTEXT ++ "\n### Relevant Feature Context:\n" ++
              joinNL (SwedishContext.detect_feature_context p) ++ "\n"
           else SwedishContext.SWEDISH_CONTEXT) ++
          "\n### Current Context:\n- Working on BRF Portal development\n- Date: " ++
          now ++ " (Swedish time)\n")) := rfl

theorem excerptN_length_le (n : Nat) (m : List Char) : (excerptN n m).length ≤ n + 3 := by
  show (m.take n ++ ("..." : String).data).length ≤ n + 3
  rw [List.length_append]
  have h1 : (m.take n).length ≤ n := List.length_take_le _ _
  have h2 : (("..." : String).data).length = 3 := by decide
  omega

/-!  ## Claim theorems  -/

/-- C1: a block decision is emitted by the blocking handler if and only if
the aggregated post-suppression findings of its security and
sensitive-data checks (`check_secrets`, `check_sensitive_data`,
`check_database_credentials`) are non-empty; the quality handler (whose
findings, including its own security-pattern matches, are all advisory)
and the prompt handler never emit a block decision. -/
theorem c1_block_iff_blockable_findings :
    (∀ (stdin : Option Json) (fs : String → Option String),
      (∃ r, SecurityCheck.main stdin fs = .block r) ↔
        SecurityCheck.securityFindings (SecurityCheck.effContent stdin fs) ≠ []) ∧
    (∀ (stdin : Option Json) (fs : String → Option String) (pkg : Bool)
        (eslint tsc : Option (Int × String)) (r : String),
      CodeQuality.main stdin fs pkg eslint tsc ≠ .block r) ∧
    (∀ (stdin : Option Json) (now : String) (r : String),
      SwedishContext.main stdin now ≠ .block r) := by
  refine ⟨?_, ?_, ?_⟩
  · intro stdin fs
    constructor
    · rintro ⟨r, hr⟩ hempty
      unfold SecurityCheck.main at hr
      dsimp only at hr
      by_cases hc : SecurityCheck.effContent stdin fs = ""
      · rw [if_pos hc] at hr
        exact Decision.noConfusion hr
      · rw [if_neg hc, if_pos hempty] at hr
        exact Decision.noConfusion hr
    · intro hne
      have hc : SecurityCheck.effContent stdin fs ≠ "" := by
        intro hc
        rw [hc, securityFindings_empty_string] at hne
        exact hne rfl
      refine ⟨SecurityCheck.reasonFor
        (SecurityCheck.securityFindings (SecurityCheck.effContent stdin fs)), ?_⟩
      unfold SecurityCheck.main
      dsimp only
      rw [if_neg hc, if_neg hne]
  · intro stdin fs pkg e t r
    obtain ⟨extra, he⟩ := qualityMain_cont stdin fs pkg e t
    rw [he]
    exact fun h => Decision.noConfusion h
  · intro stdin now r
    unfold SwedishContext.main
    dsimp only
    split
    · exact fun h => Decision.noConfusion h
    · exact fun h => Decision.noConfusion h

/-- C7: for every input, filesystem state, project-manifest state and
external-tool outcome, the quality handler's output is a continue:true
decision (never a block), and changing only the external-tool outcomes
(absence, timeout, crash, or any diagnostics) cannot change the
continue/decision field of the output. -/
theorem c7_quality_decision_invariant :
    (∀ (stdin : Option Json) (fs : String → Option String) (pkg : Bool)
        (eslint tsc : Option (Int × String)),
      ∃ extra, CodeQuality.main stdin fs pkg eslint tsc = .cont extra) ∧
    (∀ (stdin : Option Json) (fs : String → Option String) (pkg : Bool)
        (e₁ t₁ e₂ t₂ : Option (Int × String)),
      (CodeQuality.main stdin fs pkg e₁ t₁).isCont =
        (CodeQuality.main stdin fs pkg e₂ t₂).isCont) := by
  refine ⟨qualityMain_cont, ?_⟩
  intro stdin fs pkg e₁ t₁ e₂ t₂
  obtain ⟨x, hx⟩ := qualityMain_cont stdin fs pkg e₁ t₁
  obtain ⟨y, hy⟩ := qualityMain_cont stdin fs pkg e₂ t₂
  rw [hx, hy]
  rfl

/-- C2: a hardcoded-credential literal (password/secret/token/key assigned
a quoted literal, as matched by `credentialRules`) on a line carrying no
environment-reference marker makes the blocking handler emit a block
decision whose reason lists that line's 1-based number; on a line carrying
such a marker the secrets check produces no finding at all; and when no
check produces a finding the handler passes through. -/
theorem c2_credential_literal_blocking :
    (∀ (content line : String) (fs : String → Option String) (i : Nat) (rd : RE × String),
      (pyLines content).get? i = some line →
      rd ∈ SecurityCheck.credentialRules →
      rd.1.finditer line ≠ [] →
      SecurityCheck.envMarker line = false →
      ∃ reason, SecurityCheck.main (some (mkContentInput content)) fs = .block reason ∧
        SubstrOf (SecurityCheck.lineTag (i + 1)) reason) ∧
    (∀ (n : Nat) (line : String), SecurityCheck.envMarker line = true →
      SecurityCheck.checkSecretsLine n line = []) ∧
    (∀ (content : String) (fs : String → Option String),
      SecurityCheck.securityFindings content = [] →
      SecurityCheck.main (some (mkContentInput content)) fs = .cont none) := by
  refine ⟨?_, ?_, ?_⟩
  · intro content line fs i rd hline hrd hne hm
    obtain ⟨ex, hex⟩ := checkSecretsLine_has (n := i + 1) (credentialRules_sub hrd) hne hm
    have hmem : ((i + 1 : Nat), rd.2, ex) ∈ SecurityCheck.check_secrets content :=
      mem_flatMap_pyEnum SecurityCheck.checkSecretsLine hline hex
    have hmem2 : ((i + 1 : Nat), rd.2, ex) ∈ SecurityCheck.securityFindings content :=
      List.mem_append_left _ (List.mem_append_left _ hmem)
    obtain ⟨hblock, hsub⟩ := securityMain_blocks fs hmem2
    exact ⟨_, hblock, hsub⟩
  · intro n line h
    unfold SecurityCheck.checkSecretsLine
    simp [h]
  · intro content fs h
    rw [securityMain_mkContentInput]
    by_cases hc : content = ""
    · rw [if_pos hc]
    · rw [if_neg hc, if_pos h]

/-- C2 witness: `password = "verysecretvalue1"` blocks and its reason
lists line 1; a line with an environment marker yields no secrets finding;
`token = process.env.API_TOKEN` passes through. -/
theorem c2_witness :
    ((pyLines "password = \"verysecretvalue1\"").get? 0 =
        some "password = \"verysecretvalue1\"" ∧
      (SecurityCheck.credAssignRE "password" 8, "Hardcoded password").1.finditer
        "password = \"verysecretvalue1\"" ≠ [] ∧
      SecurityCheck.envMarker "password = \"verysecretvalue1\"" = false ∧
      SecurityCheck.envMarker "password = \"verysecretvalue1\" $\x7bX\x7d" = true ∧
      SecurityCheck.securityFindings "token = process.env.API_TOKEN" = []) ∧
    (∃ reason,
      SecurityCheck.main (some (mkContentInput "password = \"verysecretvalue1\""))
        (fun _ => none) = .block reason ∧
      SubstrOf (SecurityCheck.lineTag 1) reason) ∧
    SecurityCheck.checkSecretsLine 1 "password = \"verysecretvalue1\" $\x7bX\x7d" = [] ∧
    SecurityCheck.main (some (mkContentInput "token = process.env.API_TOKEN"))
      (fun _ => none) = .cont none :=
  ⟨by decide,
   c2_credential_literal_blocking.1 "password = \"verysecretvalue1\""
     "password = \"verysecretvalue1\"" (fun _ => none) 0
     (SecurityCheck.credAssignRE "password" 8, "Hardcoded password") (by decide)
     (List.mem_cons_self _ _) (by decide) (by decide),
   c2_credential_literal_blocking.2.1 1 "password = \"verysecretvalue1\" $\x7bX\x7d" (by decide),
   c2_credential_literal_blocking.2.2 "token = process.env.API_TOKEN" (fun _ => none)
     (by decide)⟩

/-- C10: the sensitive-data suppression is a whole-line, case-insensitive
substring check — a line whose lowercasing contains any of the six
indicator substrings anywhere (even inside an identifier) contributes zero
sensitive-data findings, whatever identifier shapes it also contains. -/
theorem c10_sensitive_suppression_whole_line :
    ∀ (n : Nat) (line t : String),
      t ∈ (["test", "mock", "example", "//", "/*", "#"] : List String) →
      SubstrOf t (lowerStr line) →
      SecurityCheck.checkSensitiveLine n line = [] := by
  intro n line t ht hsub
  apply checkSensitiveLine_suppressed
  exact List.any_eq_true.mpr ⟨t, ht, decide_eq_true hsub⟩

/-- C10 witness: `latestValue = "851212-1234"` contains `test` inside the
identifier `latestValue`, so the personnummer shape on it is suppressed —
even though the shape matches. -/
theorem c10_witness :
    (("test" : String) ∈ (["test", "mock", "example", "//", "/*", "#"] : List String) ∧
      SubstrOf "test" (lowerStr "latestValue = \"851212-1234\"") ∧
      SecurityCheck.pidRE.finditer "latestValue = \"851212-1234\"" ≠ []) ∧
    SecurityCheck.checkSensitiveLine 1 "latestValue = \"851212-1234\"" = [] :=
  ⟨by decide, c10_sensitive_suppression_whole_line 1 _ "test" (by decide) (by decide)⟩

/-- C5: a personnummer-shaped match (the `\d{6}[-\s]?\d{4}` rule) on a
line not suppressed by the test/mock/example/comment markers yields a
sensitive-data finding carrying that line's number — and hence a block
decision listing it; a line starting with a comment marker yields no
sensitive-data finding. -/
theorem c5_personnummer_blocking :
    (∀ (content line : String) (fs : String → Option String) (i : Nat),
      (pyLines content).get? i = some line →
      SecurityCheck.pidRE.finditer line ≠ [] →
      SecurityCheck.sensSuppressed line = false →
      (∃ ex, ((i + 1 : Nat), "Swedish personal ID number (personnummer)", ex) ∈
          SecurityCheck.check_sensitive_data content) ∧
      ∃ reason, SecurityCheck.main (some (mkContentInput content)) fs = .block reason ∧
        SubstrOf (SecurityCheck.lineTag (i + 1)) reason) ∧
    (∀ (n : Nat) (line m : String),
      m ∈ (["//", "/*", "#"] : List String) →
      m.data <+: line.data →
      SecurityCheck.checkSensitiveLine n line = []) := by
  constructor
  · intro content line fs i hline hne hs
    obtain ⟨ex, hex⟩ := checkSensitiveLine_has (n := i + 1) pid_head_sensitive hne hs
    have hmem : ((i + 1 : Nat), "Swedish personal ID number (personnummer)", ex) ∈
        SecurityCheck.check_sensitive_data content :=
      mem_flatMap_pyEnum SecurityCheck.checkSensitiveLine hline hex
    refine ⟨⟨ex, hmem⟩, ?_⟩
    have hmem2 : ((i + 1 : Nat), "Swedish personal ID number (personnummer)", ex) ∈
        SecurityCheck.securityFindings content :=
      List.mem_append_left _ (List.mem_append_right _ hmem)
    obtain ⟨hblock, hsub⟩ := securityMain_blocks fs hmem2
    exact ⟨_, hblock, hsub⟩
  · intro n line m hm hpre
    apply checkSensitiveLine_suppressed
    obtain ⟨t, ht⟩ := hpre
    have hmap : (lowerStr line).data = m.data.map Char.toLower ++ t.map Char.toLower := by
      show line.data.map Char.toLower = _
      rw [← ht, List.map_append]
    have hmlow : m.data.map Char.toLower = m.data := by
      fin_cases hm <;> decide
    rw [hmlow] at hmap
    have hinf : m.data <:+: (lowerStr line).data :=
      ⟨[], t.map Char.toLower, by rw [hmap]; rfl⟩
    apply List.any_eq_true.mpr
    refine ⟨m, ?_, decide_eq_true hinf⟩
    fin_cases hm
    · decide
    · decide
    · decide

/-- C5 witness: `pnr: 851212-1234` is flagged and blocked with a reason
listing line 1; `// pnr: 851212-1234` yields no sensitive-data finding. -/
theorem c5_witness :
    ((pyLines "pnr: 851212-1234").get? 0 = some "pnr: 851212-1234" ∧
      SecurityCheck.pidRE.finditer "pnr: 851212-1234" ≠ [] ∧
      SecurityCheck.sensSuppressed "pnr: 851212-1234" = false ∧
      ("//" : String).data <+: ("// pnr: 851212-1234" : String).data) ∧
    ((∃ ex, ((1 : Nat), "Swedish personal ID number (personnummer)", ex) ∈
        SecurityCheck.check_sensitive_data "pnr: 851212-1234") ∧
      ∃ reason, SecurityCheck.main (some (mkContentInput "pnr: 851212-1234"))
          (fun _ => none) = .block reason ∧
        SubstrOf (SecurityCheck.lineTag 1) reason) ∧
    SecurityCheck.checkSensitiveLine 1 "// pnr: 851212-1234" = [] :=
  ⟨by decide,
   c5_personnummer_blocking.1 "pnr: 851212-1234" "pnr: 851212-1234" (fun _ => none) 0
     (by decide) (by decide) (by decide),
   c5_personnummer_blocking.2 1 "// pnr: 851212-1234" "//" (by decide) (by decide)⟩

set_option maxRecDepth 8192 in
/-- C9: the generic `[A-Za-z0-9]{32}` heuristic matches every run of 32
alphanumeric characters, and an input consisting of one such (non-secret)
run on a marker-free line makes the blocking handler block on account of
that rule alone: the only finding for that input is the
`Potential API key (32 chars)` one. -/
theorem c9_generic_token_heuristic :
    (∀ cs : List Char, cs.length = 32 → (∀ c ∈ cs, alnumChar c = true) →
      SecurityCheck.apiKey32RE.finditer ⟨cs⟩ ≠ []) ∧
    SecurityCheck.check_secrets "aaaaaaaaaaaaaaaaaaaaaaaaaaaaaaaa" =
      [(1, "Potential API key (32 chars)", "aaaaaaaaaaaaaaaaaaaa...")] ∧
    SecurityCheck.check_sensitive_data "aaaaaaaaaaaaaaaaaaaaaaaaaaaaaaaa" = [] ∧
    SecurityCheck.check_database_credentials "aaaaaaaaaaaaaaaaaaaaaaaaaaaaaaaa" = [] ∧
    SecurityCheck.main (some (mkContentInput "aaaaaaaaaaaaaaaaaaaaaaaaaaaaaaaa"))
        (fun _ => none) =
      .block (SecurityCheck.reasonFor
        [(1, "Potential API key (32 chars)", "aaaaaaaaaaaaaaaaaaaa...")]) := by
  refine ⟨?_, by decide, by decide, by decide, by decide⟩
  intro cs hlen hall
  apply finditer_ne_nil_of_longest
  have h := rep_pred_longest alnumChar cs hall
  rw [hlen] at h
  exact h

/-- C9 witness: a fresh 32-character alphanumeric run is matched by the
heuristic. -/
theorem c9_witness :
    ((("b0b1b2b3b4b5b6b7b8b9c0c1c2c3c4c5" : String).data.length = 32 ∧
      ∀ c ∈ ("b0b1b2b3b4b5b6b7b8b9c0c1c2c3c4c5" : String).data, alnumChar c = true) ∧
    SecurityCheck.apiKey32RE.finditer
      ⟨("b0b1b2b3b4b5b6b7b8b9c0c1c2c3c4c5" : String).data⟩ ≠ []) :=
  ⟨by decide,
   c9_generic_token_heuristic.1 ("b0b1b2b3b4b5b6b7b8b9c0c1c2c3c4c5" : String).data
     (by decide) (by decide)⟩

theorem swedishMain_brf_eq (t : String) :
    SwedishContext.main (some (mkPromptInput "brf")) t =
      .cont (some ("UserPromptSubmit",
        SwedishContext.SWEDISH_CONTEXT ++
          "\n### Current Context:\n- Working on BRF Portal development\n- Date: " ++
          t ++ " (Swedish time)\n")) := rfl

theorem swedishMain_now_injective {t₁ t₂ : String}
    (heq : SwedishContext.main (some (mkPromptInput "brf")) t₁ =
      SwedishContext.main (some (mkPromptInput "brf")) t₂) : t₁ = t₂ := by
  rw [swedishMain_brf_eq, swedishMain_brf_eq] at heq
  have h2 := Option.some.inj (Decision.cont.inj heq)
  have h4 := congrArg String.data (congrArg Prod.snd h2)
  simp only [String.data_append] at h4
  have h6 := List.append_cancel_left (List.append_cancel_right h4)
  cases t₁
  cases t₂
  exact congrArg String.mk (by simpa using h6)

/-- C3 (counterexample): on an empty/unreadable/invalid input channel the
prompt handler does NOT return the bare `{"continue": true}` — the empty
prompt is treated as relevant and the static context annotation is
attached. -/
theorem c3_counterexample :
    SwedishContext.main none "2026-10-12 12:00" ≠ Decision.cont none := by
  intro h
  have h1 : SwedishContext.main none "2026-10-12 12:00" =
      .cont (some ("UserPromptSubmit",
        SwedishContext.SWEDISH_CONTEXT ++
          "\n### Current Context:\n- Working on BRF Portal development\n- Date: " ++
          "2026-10-12 12:00" ++ " (Swedish time)\n")) := rfl
  rw [h1] at h
  exact Option.noConfusion (Decision.cont.inj h)

/-- C3 (amended): on an empty, unreadable, or invalid-JSON input channel
the two file handlers return exactly `{"continue": true}` with no
annotation, while the prompt handler — treating the resulting empty prompt
as relevant by default — returns continue:true carrying the static context
block plus the timestamped provenance line as its annotation. -/
theorem c3_empty_channel :
    (∀ fs : String → Option String, SecurityCheck.main none fs = .cont none) ∧
    (∀ (fs : String → Option String) (pkg : Bool) (eslint tsc : Option (Int × String)),
      CodeQuality.main none fs pkg eslint tsc = .cont none) ∧
    (∀ now : String, SwedishContext.main none now =
      .cont (some ("UserPromptSubmit",
        SwedishContext.SWEDISH_CONTEXT ++
          "\n### Current Context:\n- Working on BRF Portal development\n- Date: " ++
          now ++ " (Swedish time)\n"))) :=
  ⟨fun _ => rfl, fun _ _ _ _ => rfl, fun _ => rfl⟩

/-- C4 (counterexample): running the prompt handler twice on the identical
input document yields different outputs when the clock reading differs —
the timestamped provenance line breaks byte-identical idempotence. -/
theorem c4_counterexample :
    SwedishContext.main (some (mkPromptInput "brf")) "2026-10-12 12:00" ≠
      SwedishContext.main (some (mkPromptInput "brf")) "2026-10-12 12:01" := by
  intro h
  exact absurd (swedishMain_now_injective h) (by decide)

/-- C4 (amended): each handler of this embedding is a pure function of its
explicit inputs (input document, filesystem, subprocess outcomes), so the
file handlers are idempotent by construction; the prompt handler
additionally reads the clock, and that reading is its only run-varying
dependency — two runs on the same input document can differ only when the
formatted timestamps differ. -/
theorem c4_prompt_clock_only_variance :
    ∀ (stdin : Option Json) (t₁ t₂ : String),
      SwedishContext.main stdin t₁ ≠ SwedishContext.main stdin t₂ → t₁ ≠ t₂ := by
  intro stdin t₁ t₂ hne heq
  exact hne (heq ▸ rfl)

/-- C4 witness: two runs one formatted minute apart on the same document
differ, and indeed the timestamps differ. -/
theorem c4_witness :
    (SwedishContext.main (some (mkPromptInput "brf")) "2026-10-12 12:00" ≠
      SwedishContext.main (some (mkPromptInput "brf")) "2026-10-12 12:01") ∧
    ("2026-10-12 12:00" : String) ≠ "2026-10-12 12:01" :=
  ⟨fun h => absurd (swedishMain_now_injective h) (by decide),
   c4_prompt_clock_only_variance (some (mkPromptInput "brf")) _ _
     (fun h => absurd (swedishMain_now_injective h) (by decide))⟩

theorem substrOf_context_static (fcl : List String) (now : String) :
    SubstrOf SwedishContext.SWEDISH_CONTEXT
      ((if fcl ≠ [] then
          SwedishContext.SWEDISH_CONTEXT ++ "\n### Relevant Feature Context:\n" ++
            joinNL fcl ++ "\n"
        else SwedishContext.SWEDISH_CONTEXT) ++
        "\n### Current Context:\n- Working on BRF Portal development\n- Date: " ++
        now ++ " (Swedish time)\n") := by
  apply substrOf_appendR
  apply substrOf_appendR
  apply substrOf_appendR
  split
  · exact substrOf_appendR _ (substrOf_appendR _ (substrOf_appendR _ (substrOf_refl _)))
  · exact substrOf_refl _

theorem substrOf_context_feature {fcl : List String} {e : String} (he : e ∈ fcl)
    (now : String) :
    SubstrOf e
      ((if fcl ≠ [] then
          SwedishContext.SWEDISH_CONTEXT ++ "\n### Relevant Feature Context:\n" ++
            joinNL fcl ++ "\n"
        else SwedishContext.SWEDISH_CONTEXT) ++
        "\n### Current Context:\n- Working on BRF Portal development\n- Date: " ++
        now ++ " (Swedish time)\n") := by
  apply substrOf_appendR
  apply substrOf_appendR
  apply substrOf_appendR
  rw [if_pos (List.ne_nil_of_mem he)]
  exact substrOf_appendR _ (substrOf_appendL _ (substrOf_joinNL he))

set_option maxRecDepth 8192 in
theorem context_assembled_ne_empty (fcl : List String) (now : String) :
    ((if fcl ≠ [] then
        SwedishContext.SWEDISH_CONTEXT ++ "\n### Relevant Feature Context:\n" ++
          joinNL fcl ++ "\n"
      else SwedishContext.SWEDISH_CONTEXT) ++
      "\n### Current Context:\n- Working on BRF Portal development\n- Date: " ++
      now ++ " (Swedish time)\n") ≠ "" := by
  intro h0
  have h := substrOf_context_static fcl now
  rw [h0] at h
  exact absurd h.length_le (by decide)

/-- C6: (1) a non-empty prompt containing none of the domain-indicator
keywords (case-insensitive substring match) yields exactly
`{"continue": true}` with no context; (2) a prompt containing a
domain-indicator keyword yields a pass-through whose additionalContext is
non-empty, contains the static terminology block, and contains the
explanation line of every feature the keyword matcher detects for that
prompt; (3) the empty prompt is treated as relevant by default, so the
static terminology block is emitted. -/
theorem c6_prompt_handler :
    (∀ (p now : String), p ≠ "" →
      (∀ k ∈ SwedishContext.brf_indicators, ¬ SubstrOf k (lowerStr p)) →
      SwedishContext.main (some (mkPromptInput p)) now = .cont none) ∧
    (∀ (p now k : String), k ∈ SwedishContext.brf_indicators →
      SubstrOf k (lowerStr p) →
      ∃ ctx, SwedishContext.main (some (mkPromptInput p)) now =
          .cont (some ("UserPromptSubmit", ctx)) ∧
        SubstrOf SwedishContext.SWEDISH_CONTEXT ctx ∧ ctx ≠ "" ∧
        ∀ e ∈ SwedishContext.detect_feature_context p, SubstrOf e ctx) ∧
    (∀ now : String, ∃ ctx,
      SwedishContext.main (some (mkPromptInput "")) now =
        .cont (some ("UserPromptSubmit", ctx)) ∧
      SubstrOf SwedishContext.SWEDISH_CONTEXT ctx) := by
  refine ⟨?_, ?_, ?_⟩
  · intro p now hp hnone
    have hbrf : (SwedishContext.brf_indicators.any fun k => strContains (lowerStr p) k) =
        false := by
      rw [List.any_eq_false]
      intro k hk hc
      exact hnone k hk (of_decide_eq_true hc)
    rw [swedishMain_mkPromptInput, hbrf]
    simp [length_pos_of_ne_empty hp]
  · intro p now k hk hsub
    have hbrf : (SwedishContext.brf_indicators.any fun kk => strContains (lowerStr p) kk) =
        true :=
      List.any_eq_true.mpr ⟨k, hk, decide_eq_true hsub⟩
    rw [swedishMain_mkPromptInput, hbrf]
    simp only [Bool.not_true, Bool.false_and, Bool.false_eq_true, if_false]
    exact ⟨_, rfl, substrOf_context_static _ now, context_assembled_ne_empty _ now,
      fun e he => substrOf_context_feature he now⟩
  · intro now
    refine ⟨SwedishContext.SWEDISH_CONTEXT ++
      "\n### Current Context:\n- Working on BRF Portal development\n- Date: " ++
      now ++ " (Swedish time)\n", rfl, ?_⟩
    exact substrOf_appendR _ (substrOf_appendR _ (substrOf_appendR _ (substrOf_refl _)))

set_option maxRecDepth 8192 in
/-- C6 witness: `refactor this sorting function` passes through bare;
`update the invoice BRF feature` passes through with the static block and
its detected feature lines; the empty prompt gets the static block. -/
theorem c6_witness :
    (("refactor this sorting function" : String) ≠ "" ∧
      (∀ k ∈ SwedishContext.brf_indicators,
        ¬ SubstrOf k (lowerStr "refactor this sorting function")) ∧
      ("brf" : String) ∈ SwedishContext.brf_indicators ∧
      SubstrOf "brf" (lowerStr "update the invoice BRF feature")) ∧
    SwedishContext.main (some (mkPromptInput "refactor this sorting function")) "T" =
      .cont none ∧
    (∃ ctx, SwedishContext.main (some (mkPromptInput "update the invoice BRF feature")) "T" =
        .cont (some ("UserPromptSubmit", ctx)) ∧
      SubstrOf SwedishContext.SWEDISH_CONTEXT ctx ∧ ctx ≠ "" ∧
      ∀ e ∈ SwedishContext.detect_feature_context "update the invoice BRF feature",
        SubstrOf e ctx) ∧
    (∃ ctx, SwedishContext.main (some (mkPromptInput "")) "T" =
        .cont (some ("UserPromptSubmit", ctx)) ∧
      SubstrOf SwedishContext.SWEDISH_CONTEXT ctx) :=
  ⟨by decide,
   c6_prompt_handler.1 "refactor this sorting function" "T" (by decide) (by decide),
   c6_prompt_handler.2.1 "update the invoice BRF feature" "T" "brf" (by decide) (by decide),
   c6_prompt_handler.2.2 "T"⟩

/-- C8 (counterexample): the excerpt can contain the full matched secret:
for `secret = "12345678"` the 19-character match (at the truncation bound)
is reproduced whole, and on `eyJa.eyJa.aaaaaaaaaa. x` even the
21-character JWT match — longer than the 20-character truncation bound —
appears in full, because its trailing period coincides with the appended
ellipsis. -/
theorem c8_counterexample :
    (SecurityCheck.check_secrets "secret = \"12345678\"" =
        [(1, "Hardcoded secret", "secret = \"12345678\"...")] ∧
      SubstrOf "secret = \"12345678\"" "secret = \"12345678\"...") ∧
    (SecurityCheck.check_secrets "eyJa.eyJa.aaaaaaaaaa. x" =
        [(1, "JWT token", "eyJa.eyJa.aaaaaaaaaa...")] ∧
      ("eyJa.eyJa.aaaaaaaaaa." : String).length = 21 ∧
      SubstrOf "eyJa.eyJa.aaaaaaaaaa." "eyJa.eyJa.aaaaaaaaaa...") :=
  ⟨⟨by decide, by decide⟩, by decide, by decide, by decide⟩

/-- C8 (amended): every secrets excerpt is the match truncated to its
first 20 characters plus an ellipsis, every sensitive-data excerpt the
match truncated to its first 10 plus an ellipsis, and every
connection-string excerpt a constant text — so excerpts are bounded by 23
(resp. 13) characters.  This bound is not a redaction guarantee: every
match of at most 20 (resp. 10) characters appears in full in its excerpt,
a match of 21–23 (resp. 11–13) characters can still appear in full when
its tail coincides with the appended ellipsis (see the 21-character JWT
counterexample), and only matches longer than 23 (resp. 13) characters can
never appear in full. -/
theorem c8_excerpt_truncation :
    (∀ (content : String) (f : Finding), f ∈ SecurityCheck.check_secrets content →
      (∃ m : List Char, f.2.2 = excerptN 20 m) ∧ f.2.2.length ≤ 23) ∧
    (∀ (content : String) (f : Finding), f ∈ SecurityCheck.check_sensitive_data content →
      (∃ m : List Char, f.2.2 = excerptN 10 m) ∧ f.2.2.length ≤ 13) ∧
    (∀ (content : String) (f : Finding),
      f ∈ SecurityCheck.check_database_credentials content →
      f.2.2 = "Connection string found") ∧
    (∀ m : List Char, 23 < m.length → ¬ (m <:+: (excerptN 20 m).data)) ∧
    (∀ m : List Char, 13 < m.length → ¬ (m <:+: (excerptN 10 m).data)) ∧
    (∀ m : List Char, m.length ≤ 20 → m <+: (excerptN 20 m).data) ∧
    (∀ m : List Char, m.length ≤ 10 → m <+: (excerptN 10 m).data) := by
  refine ⟨?_, ?_, ?_, ?_, ?_, ?_, ?_⟩
  · intro content f hf
    unfold SecurityCheck.check_secrets at hf
    obtain ⟨p, -, hf1⟩ := List.mem_flatMap.mp hf
    unfold SecurityCheck.checkSecretsLine at hf1
    split at hf1
    · exact absurd hf1 (List.not_mem_nil _)
    · obtain ⟨pd, -, hf2⟩ := List.mem_flatMap.mp hf1
      obtain ⟨m, -, rfl⟩ := List.mem_map.mp hf2
      exact ⟨⟨m.2, rfl⟩, excerptN_length_le 20 m.2⟩
  · intro content f hf
    unfold SecurityCheck.check_sensitive_data at hf
    obtain ⟨p, -, hf1⟩ := List.mem_flatMap.mp hf
    unfold SecurityCheck.checkSensitiveLine at hf1
    split at hf1
    · exact absurd hf1 (List.not_mem_nil _)
    · obtain ⟨pd, -, hf2⟩ := List.mem_flatMap.mp hf1
      obtain ⟨m, -, rfl⟩ := List.mem_map.mp hf2
      exact ⟨⟨m.2, rfl⟩, excerptN_length_le 10 m.2⟩
  · intro content f hf
    unfold SecurityCheck.check_database_credentials at hf
    obtain ⟨p, -, hf1⟩ := List.mem_flatMap.mp hf
    unfold SecurityCheck.checkDbLine at hf1
    obtain ⟨pd, -, hf2⟩ := List.mem_flatMap.mp hf1
    split at hf2
    · rw [List.mem_singleton] at hf2
      subst hf2
      rfl
    · exact absurd hf2 (List.not_mem_nil _)
  · intro m hm hinf
    have hle := hinf.length_le
    have hb : (excerptN 20 m).data.length ≤ 23 := excerptN_length_le 20 m
    omega
  · intro m hm hinf
    have hle := hinf.length_le
    have hb : (excerptN 10 m).data.length ≤ 13 := excerptN_length_le 10 m
    omega
  · intro m hm
    show m <+: m.take 20 ++ ("..." : String).data
    rw [List.take_of_length_le hm]
    exact List.prefix_append _ _
  · intro m hm
    show m <+: m.take 10 ++ ("..." : String).data
    rw [List.take_of_length_le hm]
    exact List.prefix_append _ _

/-- C8 witness: the 19-character counterexample finding satisfies the
truncation shape and appears in full in its excerpt, while a 24-character
match can never appear in full. -/
theorem c8_witness :
    (((1 : Nat), ("Hardcoded secret" : String), ("secret = \"12345678\"..." : String)) ∈
        SecurityCheck.check_secrets "secret = \"12345678\"" ∧
      23 < ("aaaaaaaaaaaaaaaaaaaaaaaa" : String).data.length ∧
      ("secret = \"12345678\"" : String).data.length ≤ 20) ∧
    ((∃ m : List Char,
        ((((1 : Nat), ("Hardcoded secret" : String),
          ("secret = \"12345678\"..." : String)) : Finding)).2.2 = excerptN 20 m) ∧
      (("secret = \"12345678\"..." : String)).length ≤ 23) ∧
    ¬ (("aaaaaaaaaaaaaaaaaaaaaaaa" : String).data <:+:
        (excerptN 20 ("aaaaaaaaaaaaaaaaaaaaaaaa" : String).data).data) ∧
    ("secret = \"12345678\"" : String).data <+:
      (excerptN 20 ("secret = \"12345678\"" : String).data).data :=
  ⟨by decide,
   c8_excerpt_truncation.1 "secret = \"12345678\"" _ (by decide),
   c8_excerpt_truncation.2.2.2.1 ("aaaaaaaaaaaaaaaaaaaaaaaa" : String).data (by decide),
   c8_excerpt_truncation.2.2.2.2.2.1 ("secret = \"12345678\"" : String).data (by decide)⟩

/-- C1 witness: an input with a hardcoded-credential finding produces a
block decision, and the advisory handler never produces one. -/
theorem c1_witness :
    (∃ r, SecurityCheck.main (some (mkContentInput "password = \"hunter2hunter2\""))
        (fun _ => none) = .block r) ∧
    CodeQuality.main none (fun _ => none) false none none ≠ .block "x" :=
  ⟨(c1_block_iff_blockable_findings.1 _ _).mpr (by decide),
   c1_block_iff_blockable_findings.2.1 none (fun _ => none) false none none "x"⟩
